import Mathlib

/-!
Verification development for `invoice_flatten_merge.py`: the pairing engine,
the PDF header check, and the per-pair flatten/merge/flatten batch pipeline
(GUI worker loop and CLI loop), shallowly embedded in Lean.

Strings are embedded as `List Char`; the filesystem is a partial map from
paths to abstract documents; the external Ghostscript/PyPDF2 adapters are
modelled from the spec's interface contracts, with injected success/failure
oracles for every fallible step.
-/

/-- Strings of the Python source are embedded as lists of characters. -/
abbrev Str := List Char

/-- `str.lower()` on the ASCII inputs the tool handles: character-wise lowering. -/
def lowerStr (s : Str) : Str := s.map Char.toLower

/-- Whether `pat` is a prefix of `s` (Boolean, by direct scanning). -/
def isPrefixL : Str → Str → Bool
  | [], _ => true
  | _ :: _, [] => false
  | p :: ps, c :: cs => p == c && isPrefixL ps cs

/-- Python's substring test `pat in s`. -/
def containsSub (pat : Str) : Str → Bool
  | [] => pat.isEmpty
  | c :: rest => isPrefixL pat (c :: rest) || containsSub pat rest

/-- Python's `s.endswith(pat)`. -/
def endsWithL (pat s : Str) : Bool := isPrefixL pat.reverse s.reverse

/-- Fuel-driven scanner behind `stripAll`; the fuel is an upper bound on the
remaining input length, so it never runs out on the intended calls. -/
def stripAllF (pat : Str) : Nat → Str → Str
  | _, [] => []
  | 0, s => s
  | fuel + 1, c :: rest =>
    if pat ≠ [] ∧ isPrefixL pat (c :: rest) then
      stripAllF pat fuel (List.drop pat.length (c :: rest))
    else
      c :: stripAllF pat fuel rest

/-- Python's `s.replace(pat, "")`: delete all occurrences of `pat`,
scanning left to right, non-overlapping (as `str.replace` does). -/
def stripAll (pat : Str) (s : Str) : Str := stripAllF pat s.length s

/-- The characters matched by the regex class `[\s_-]` in the source's
`re.sub(r"[\s_-]+", "", base)` (ASCII whitespace plus underscore/hyphen). -/
def isSep (c : Char) : Bool :=
  c == ' ' || c == '\t' || c == '\n' || c == '\r' ||
  c == '\x0b' || c == '\x0c' || c == '_' || c == '-'

/-- `re.sub(r"[\s_-]+", "", s)`: removing every separator character. -/
def removeSeps (s : Str) : Str := s.filter (fun c => !isSep c)

/-- `COVER_KEYWORD = "cover sheet"`. -/
def COVER_KEYWORD : Str := "cover sheet".toList

/-- `INVOICE_KEYWORD = "invoice"`. -/
def INVOICE_KEYWORD : Str := "invoice".toList

/-- `DEFAULT_OUTPUT = "FINAL_MERGED_INVOICE.pdf"`. -/
def DEFAULT_OUTPUT : Str := "FINAL_MERGED_INVOICE.pdf".toList

/-- The inner `sanitize` of `pair_cover_invoices`: lower-case, delete both
role keywords, then delete all separator characters. -/
def sanitize (name : Str) : Str :=
  removeSeps (stripAll INVOICE_KEYWORD (stripAll COVER_KEYWORD (lowerStr name)))

/-- A filesystem path: directory part plus final-component file name. -/
structure FsPath where
  dir : Str
  name : Str
deriving DecidableEq, Repr

/-- `pathlib.Path.stem`: the file name with its last suffix removed
(a leading dot does not start a suffix). -/
def stemOf (name : Str) : Str :=
  let r := name.reverse
  let afterDot := r.takeWhile (fun c => c ≠ '.')
  if afterDot.length = r.length then name
  else if afterDot.length + 1 = r.length then name
  else (r.drop (afterDot.length + 1)).reverse

/-- The `.stem` of a path's file name. -/
def FsPath.stem (p : FsPath) : Str := stemOf p.name

/-- One bucket of the `groups` dictionary: the mutable `cover`/`invoice` slots. -/
structure Entry where
  cover : Option FsPath
  invoice : Option FsPath
deriving DecidableEq, Repr

/-- A freshly `setdefault`-ed bucket: both slots empty. -/
def emptyEntry : Entry := ⟨none, none⟩

/-- The two keyword-guarded slot assignments of the grouping loop body:
`entry["cover"] = pdf` when the stem contains the cover keyword and
`entry["invoice"] = pdf` when it contains the invoice keyword (last wins). -/
def updateEntry (stem : Str) (p : FsPath) (e : Entry) : Entry :=
  let e1 := if containsSub COVER_KEYWORD stem then { e with cover := some p } else e
  if containsSub INVOICE_KEYWORD stem then { e1 with invoice := some p } else e1

/-- `groups.setdefault(key, {})` followed by the slot assignments, on an
insertion-ordered association list standing for the Python dict. -/
def insertGrouped (key stem : Str) (p : FsPath) : List (Str × Entry) → List (Str × Entry)
  | [] => [(key, updateEntry stem p emptyEntry)]
  | (k, e) :: rest =>
    if k = key then (k, updateEntry stem p e) :: rest
    else (k, e) :: insertGrouped key stem p rest

/-- One iteration of the grouping loop of `pair_cover_invoices` for one pdf. -/
def insertPdf (gs : List (Str × Entry)) (p : FsPath) : List (Str × Entry) :=
  let stem := lowerStr p.stem
  insertGrouped (sanitize stem) stem p gs

/-- The whole grouping loop: fold the pdfs into the ordered bucket map. -/
def buildGroups (pdfs : List FsPath) : List (Str × Entry) := pdfs.foldl insertPdf []

/-- The final loop of `pair_cover_invoices`: emit `(cover, invoice)` for every
bucket whose two slots are both filled, in bucket insertion order. -/
def extractPairs (gs : List (Str × Entry)) : List (FsPath × FsPath) :=
  gs.filterMap fun ke =>
    match ke.2.cover, ke.2.invoice with
    | some c, some i => some (c, i)
    | _, _ => none

/-- `pair_cover_invoices(pdfs)`. -/
def pair_cover_invoices (pdfs : List FsPath) : List (FsPath × FsPath) :=
  extractPairs (buildGroups pdfs)

/-- Association-list lookup in the bucket map (dict indexing by key). -/
def lookupEntry : List (Str × Entry) → Str → Option Entry
  | [], _ => none
  | (k, e) :: rest, key => if k = key then some e else lookupEntry rest key

-- ── PDF header check ─────────────────────────────────────────

/-- A filesystem as seen by `is_valid_pdf`: a path either holds a byte list
or is unreadable (`none` stands for any I/O error, including absence). -/
abbrev ByteFS := FsPath → Option (List Nat)

/-- The five magic bytes `b"%PDF-"`. -/
def PDF_MAGIC : List Nat := [0x25, 0x50, 0x44, 0x46, 0x2D]

/-- `is_valid_pdf(filepath)`: read up to five bytes and compare with the
magic; any raised I/O error is caught and yields `false`. -/
def is_valid_pdf (fs : ByteFS) (p : FsPath) : Bool :=
  match fs p with
  | none => false
  | some bytes => bytes.take 5 == PDF_MAGIC

-- ── Documents and the filesystem ─────────────────────────────

/-- Modelled from the spec: the abstract content of a PDF file, tracking its
provenance through the two external adapters.  `base n w` is an input
document with `n` pages and widget-presence flag `w`; `flat d` is the result
of the external flatten adapter on `d` (§4.3: same rendered pages, widget
annotations discarded); `merged a b` is the result of the external merge
adapter (§4.4: pages of `a` then pages of `b`, nothing re-rendered). -/
inductive Doc where
  | base : Nat → Bool → Doc
  | flat : Doc → Doc
  | merged : Doc → Doc → Doc
deriving DecidableEq, Repr

/-- Modelled from the spec: page count of a document — flattening preserves
every rendered page (§4.3), merging concatenates the page lists (§4.4). -/
def Doc.pages : Doc → Nat
  | .base n _ => n
  | .flat d => d.pages
  | .merged a b => a.pages + b.pages

/-- Modelled from the spec: whether a document still carries AcroForm/widget
annotations — the flatten adapter discards them (§4.3); merging preserves
whatever its inputs carry (§4.4). -/
def Doc.hasWidgets : Doc → Bool
  | .base _ w => w
  | .flat _ => false
  | .merged a b => a.hasWidgets || b.hasWidgets

/-- The filesystem during a batch run: each path holds a document or nothing. -/
abbrev FS := FsPath → Option Doc

/-- Point update of the filesystem. -/
def FS.set (fs : FS) (p : FsPath) (v : Option Doc) : FS :=
  fun q => if q = p then v else fs q

-- ── Failure-injection plan for one job ───────────────────────

/-- The injected outcome of every fallible external step of one job:
whether each adapter call, filesystem operation and cleanup deletion
succeeds, and the answer of the overwrite confirmation dialog. -/
structure StepPlan where
  flattenCoverOk : Bool
  confirmOverwrite : Bool
  mergeOk : Bool
  flattenFinalOk : Bool
  unlinkFinalOk : Bool
  renameOk : Bool
  cleanupFlatOk : Bool
  cleanupFinalOk : Bool
deriving DecidableEq, Repr

/-- Terminal state of one job, as in the spec's state machine. -/
inductive JobOutcome where
  | done
  | failed
  | skipped
deriving DecidableEq, Repr, BEq

/-- `gs_flatten(src, dst)`: raises if `src` is missing or the tool fails
(`none`, filesystem unchanged); on success writes the flattened copy. -/
def doFlatten (fs : FS) (ok : Bool) (src dst : FsPath) : Option FS :=
  match fs src with
  | none => none
  | some d => if ok then some (fs.set dst (some (Doc.flat d))) else none

/-- `merge_pdfs(first, second, out_pdf)`: raises if an input is missing or
reading/writing fails (`none`); on success writes the concatenation. -/
def doMerge (fs : FS) (ok : Bool) (first second dst : FsPath) : Option FS :=
  match fs first, fs second with
  | some a, some b =>
    if ok then some (fs.set dst (some (Doc.merged a b))) else none
  | _, _ => none

/-- `src.rename(dst)`: raises if `src` is missing or the rename fails;
on success the content moves from `src` to `dst`. -/
def doRename (fs : FS) (ok : Bool) (src dst : FsPath) : Option FS :=
  match fs src with
  | none => none
  | some d => if ok then some ((fs.set src none).set dst (some d)) else none

/-- The guarded cleanup deletion
`if temp_file.exists(): try temp_file.unlink() except: pass`. -/
def cleanupTemp (fs : FS) (ok : Bool) (t : FsPath) : FS :=
  match fs t with
  | none => fs
  | some _ => if ok then fs.set t none else fs

/-- Decimal digits of a number, for the index suffix of temp file names. -/
def digitsOf (n : Nat) : Str := Nat.toDigits 10 n

/-- GUI temp name `TEMP_FLAT_{cover.stem}_{i}.pdf` in the output folder. -/
def tempFlatPath (outFolder : Str) (cover : FsPath) (i : Nat) : FsPath :=
  ⟨outFolder, "TEMP_FLAT_".toList ++ cover.stem ++ "_".toList ++ digitsOf i ++ ".pdf".toList⟩

/-- GUI temp name `TEMP_FINAL_{final_out.stem}_{i}.pdf` in the output folder. -/
def tempFinalPath (outFolder : Str) (finalOut : FsPath) (i : Nat) : FsPath :=
  ⟨outFolder, "TEMP_FINAL_".toList ++ finalOut.stem ++ "_".toList ++ digitsOf i ++ ".pdf".toList⟩

/-- The output-path naming rule: the caller-supplied name for a single-pair
batch, `MERGED_{invoice.stem}.pdf` when the batch has several pairs. -/
def finalOutPath (outFolder outName : Str) (npairs : Nat) (invoice : FsPath) : FsPath :=
  if npairs = 1 then ⟨outFolder, outName⟩
  else ⟨outFolder, "MERGED_".toList ++ invoice.stem ++ ".pdf".toList⟩

-- ── GUI per-pair job (`InvoiceMergeGUI._process_thread` loop body) ──

/-- What one finished job reports back. -/
structure JobResult where
  fs : FS
  outcome : JobOutcome
  calledMerge : Bool

/-- The body of the GUI processing loop before its `finally` block: flatten
the cover to the indexed temp, compute the final output path, ask for
overwrite confirmation when it exists (a "no" skips the job before any merge),
merge, flatten the merged file to the second temp, then replace the output
(unlink old, rename new).  Any raised step lands in the `except` branch,
leaving the job `failed`.  Returns the filesystem, the terminal outcome,
whether the merge adapter was invoked, and the `temp_final` variable's value
(assigned only once the final flatten step is reached). -/
def processPairCore (plan : StepPlan) (outFolder outName : Str) (npairs i : Nat)
    (cover invoice : FsPath) (fs : FS) :
    FS × JobOutcome × Bool × Option FsPath :=
  let tFlat := tempFlatPath outFolder cover i
  match doFlatten fs plan.flattenCoverOk cover tFlat with
  | none => (fs, .failed, false, none)
  | some fs1 =>
    let fout := finalOutPath outFolder outName npairs invoice
    if (fs1 fout).isSome && !plan.confirmOverwrite then
      (fs1, .skipped, false, none)
    else
      match doMerge fs1 plan.mergeOk tFlat invoice fout with
      | none => (fs1, .failed, true, none)
      | some fs2 =>
        let tFinal := tempFinalPath outFolder fout i
        match doFlatten fs2 plan.flattenFinalOk fout tFinal with
        | none => (fs2, .failed, true, some tFinal)
        | some fs3 =>
          match fs3 fout with
          | some _ =>
            if plan.unlinkFinalOk then
              match doRename (fs3.set fout none) plan.renameOk tFinal fout with
              | none => (fs3.set fout none, .failed, true, some tFinal)
              | some fs5 => (fs5, .done, true, some tFinal)
            else (fs3, .failed, true, some tFinal)
          | none =>
            match doRename fs3 plan.renameOk tFinal fout with
            | none => (fs3, .failed, true, some tFinal)
            | some fs5 => (fs5, .done, true, some tFinal)

/-- One GUI job including its `finally` cleanup: delete `temp_flat` and, when
it was assigned, `temp_final`, swallowing deletion failures. -/
def processPair (plan : StepPlan) (outFolder outName : Str) (npairs i : Nat)
    (cover invoice : FsPath) (fs : FS) : JobResult :=
  let tFlat := tempFlatPath outFolder cover i
  let core := processPairCore plan outFolder outName npairs i cover invoice fs
  let fsA := cleanupTemp core.1 plan.cleanupFlatOk tFlat
  let fsB :=
    match core.2.2.2 with
    | none => fsA
    | some t => cleanupTemp fsA plan.cleanupFinalOk t
  ⟨fsB, core.2.1, core.2.2.1⟩

/-- The GUI batch loop over the emitted pairs, threading the filesystem and
accumulating the per-pair outcomes and the `successful`/`failed` counters
exactly as the loop body increments them (a skipped job increments neither). -/
def runJobs (plans : Nat → StepPlan) (outFolder outName : Str) (npairs : Nat) :
    Nat → List (FsPath × FsPath) → FS → FS × List JobOutcome × Nat × Nat
  | _, [], fs => (fs, [], 0, 0)
  | i, (c, v) :: rest, fs =>
    let r := processPair (plans i) outFolder outName npairs i c v fs
    let rec' := runJobs plans outFolder outName npairs (i + 1) rest r.fs
    (rec'.1, r.outcome :: rec'.2.1,
      (if r.outcome = .done then rec'.2.2.1 + 1 else rec'.2.2.1),
      (if r.outcome = .failed then rec'.2.2.2 + 1 else rec'.2.2.2))

/-- Python's `str.strip()` character class on the ASCII range. -/
def isWs (c : Char) : Bool :=
  c == ' ' || c == '\t' || c == '\n' || c == '\r' || c == '\x0b' || c == '\x0c'

/-- Python's `str.strip()`. -/
def stripWs (s : Str) : Str :=
  ((s.dropWhile isWs).reverse.dropWhile isWs).reverse

/-- The ".pdf" suffix literal. -/
def pdfSuffix : Str := ".pdf".toList

/-- The GUI's output-name normalization: strip the entry field's text and
append ".pdf" unless it already ends with it. -/
def processOutputName (s : Str) : Str :=
  let t := stripWs s
  if endsWithL pdfSuffix t then t else t ++ pdfSuffix

/-- The GUI worker `_process_thread` from pairing onwards: pair the inputs,
normalize the output name, and drive every pair through its job. -/
def runPipelineGUI (plans : Nat → StepPlan) (outFolder rawOutName : Str)
    (pdfs : List FsPath) (fs : FS) : FS × List JobOutcome × Nat × Nat :=
  let pairs := pair_cover_invoices pdfs
  let outName := processOutputName rawOutName
  runJobs plans outFolder outName pairs.length 0 pairs fs

-- ── CLI loop (`cli_main`) ────────────────────────────────────

/-- CLI temp name `TEMP_FLAT_{cover.stem}_{i}.pdf` next to the output. -/
def cliTempFlat (outDir : Str) (cover : FsPath) (i : Nat) : FsPath :=
  ⟨outDir, "TEMP_FLAT_".toList ++ cover.stem ++ "_".toList ++ digitsOf i ++ ".pdf".toList⟩

/-- CLI temp name `TEMP_FINAL_{out_file.stem}.pdf` (no index suffix). -/
def cliTempFinal (outDir : Str) (outFile : FsPath) : FsPath :=
  ⟨outDir, "TEMP_FINAL_".toList ++ outFile.stem ++ ".pdf".toList⟩

/-- One iteration of the CLI `for` loop: flatten the cover, merge with the
invoice into the output path, flatten that into the un-indexed final temp,
unconditionally unlink the output and rename the temp onto it.  Returns the
filesystem and whether the iteration ran to completion (`false` means an
exception escaped the iteration). -/
def cliStep (plan : StepPlan) (outDir outName : Str) (npairs i : Nat)
    (cover invoice : FsPath) (fs : FS) : FS × Bool :=
  let tFlat := cliTempFlat outDir cover i
  match doFlatten fs plan.flattenCoverOk cover tFlat with
  | none => (fs, false)
  | some fs1 =>
    let outFile := finalOutPath outDir outName npairs invoice
    match doMerge fs1 plan.mergeOk tFlat invoice outFile with
    | none => (fs1, false)
    | some fs2 =>
      let tFinal := cliTempFinal outDir outFile
      match doFlatten fs2 plan.flattenFinalOk outFile tFinal with
      | none => (fs2, false)
      | some fs3 =>
        match fs3 outFile with
        | none => (fs3, false)
        | some _ =>
          if plan.unlinkFinalOk then
            match doRename (fs3.set outFile none) plan.renameOk tFinal outFile with
            | none => (fs3.set outFile none, false)
            | some fs4 => (fs4, true)
          else (fs3, false)

/-- The CLI processing loop with its single surrounding `try`: on the first
exception, delete the current iteration's `temp_flat` if present and exit
with failure, abandoning every remaining pair; after a full pass, delete the
last iteration's `temp_flat` if it still exists.  Returns the filesystem,
the outcome list of the pairs that were reached, and the success flag
(`false` stands for `sys.exit(1)`). -/
def runCliLoop (plans : Nat → StepPlan) (outDir outName : Str) (npairs : Nat) :
    Nat → List (FsPath × FsPath) → FS → Option FsPath → FS × List JobOutcome × Bool
  | _, [], fs, lastTemp =>
    (match lastTemp with
     | none => fs
     | some t => cleanupTemp fs true t, [], true)
  | i, (c, v) :: rest, fs, _ =>
    let tFlat := cliTempFlat outDir c i
    let step := cliStep (plans i) outDir outName npairs i c v fs
    if step.2 then
      let rec' := runCliLoop plans outDir outName npairs (i + 1) rest step.1 (some tFlat)
      (rec'.1, .done :: rec'.2.1, rec'.2.2)
    else
      (cleanupTemp step.1 true tFlat, [.failed], false)

/-- The CLI pipeline from pairing onwards. -/
def runPipelineCli (plans : Nat → StepPlan) (outDir outName : Str)
    (pdfs : List FsPath) (fs : FS) : FS × List JobOutcome × Bool :=
  let pairs := pair_cover_invoices pdfs
  runCliLoop plans outDir outName pairs.length 0 pairs fs none

-- ── Role-classification predicates of the grouping loop ──────

/-- The stem (lower-cased) contains the cover keyword. -/
def coverClassified (p : FsPath) : Prop :=
  containsSub COVER_KEYWORD (lowerStr p.stem) = true

/-- The stem (lower-cased) contains the invoice keyword. -/
def invoiceClassified (p : FsPath) : Prop :=
  containsSub INVOICE_KEYWORD (lowerStr p.stem) = true

instance (p : FsPath) : Decidable (coverClassified p) := by
  unfold coverClassified; infer_instance

instance (p : FsPath) : Decidable (invoiceClassified p) := by
  unfold invoiceClassified; infer_instance

/-- Every role slot of a bucket holds a candidate from `A` whose stem really
contains that role's keyword. -/
def EntryOk (A : List FsPath) (e : Entry) : Prop :=
  (∀ c, e.cover = some c → c ∈ A ∧ coverClassified c) ∧
  (∀ i, e.invoice = some i → i ∈ A ∧ invoiceClassified i)

/-- `EntryOk` for every bucket of a bucket map. -/
def GroupsOk (A : List FsPath) (gs : List (Str × Entry)) : Prop :=
  ∀ ke ∈ gs, EntryOk A ke.2

-- ── Concrete example inputs ──────────────────────────────────

/-- Input directory of the example files. -/
def exDirIn : Str := "in".toList

/-- Output folder of the example runs. -/
def exDirOut : Str := "out".toList

/-- Example cover sheet A. -/
def exCoverA : FsPath := ⟨exDirIn, "Cover Sheet A.pdf".toList⟩

/-- Example invoice A. -/
def exInvoiceA : FsPath := ⟨exDirIn, "Invoice A.pdf".toList⟩

/-- Example cover sheet B. -/
def exCoverB : FsPath := ⟨exDirIn, "Cover Sheet B.pdf".toList⟩

/-- Example invoice B. -/
def exInvoiceB : FsPath := ⟨exDirIn, "Invoice B.pdf".toList⟩

/-- Example cover sheet C. -/
def exCoverC : FsPath := ⟨exDirIn, "Cover Sheet C.pdf".toList⟩

/-- Example invoice C. -/
def exInvoiceC : FsPath := ⟨exDirIn, "Invoice C.pdf".toList⟩

/-- A second cover sheet in bucket "a": same grouping key as `exCoverA`. -/
def exCoverDupA : FsPath := ⟨exDirIn, "Cover Sheet-A.pdf".toList⟩

/-- A stem containing both role keywords at once. -/
def exBothRoles : FsPath := ⟨exDirIn, "Cover Sheet Invoice.pdf".toList⟩

/-- The spec's end-to-end cover file name, with no space in "CoverSheet". -/
def exCoverNoSpace : FsPath := ⟨exDirIn, "CoverSheet_ABC.pdf".toList⟩

/-- The spec's end-to-end invoice file name. -/
def exInvoiceABC : FsPath := ⟨exDirIn, "Invoice_ABC.pdf".toList⟩

/-- The end-to-end cover file with the cover keyword actually present. -/
def exCoverABC : FsPath := ⟨exDirIn, "Cover Sheet_ABC.pdf".toList⟩

/-- Default single-pair output path of the example runs. -/
def exOutPath : FsPath := ⟨exDirOut, DEFAULT_OUTPUT⟩

/-- A plan on which every external step succeeds and overwrite is confirmed. -/
def planAllOk : StepPlan := ⟨true, true, true, true, true, true, true, true⟩

/-- A plan whose cover-flatten call fails. -/
def planFlattenCoverFail : StepPlan := ⟨false, true, true, true, true, true, true, true⟩

/-- A plan whose final flatten call fails. -/
def planFinalFlattenFail : StepPlan := ⟨true, true, true, false, true, true, true, true⟩

/-- A plan on which the replace step's rename fails after a clean unlink. -/
def planRenameFail : StepPlan := ⟨true, true, true, true, true, false, true, true⟩

/-- A plan on which the overwrite confirmation is answered "no". -/
def planConfirmNo : StepPlan := ⟨true, false, true, true, true, true, true, true⟩

/-- Batch plans on which exactly the second pair's cover flatten fails. -/
def exPlansSecondFails : Nat → StepPlan :=
  fun i => if i = 1 then planFlattenCoverFail else planAllOk

/-- Initial filesystem holding the six example input files. -/
def exFS6 : FS := fun p =>
  if p = exCoverA then some (.base 2 true)
  else if p = exInvoiceA then some (.base 3 false)
  else if p = exCoverB then some (.base 1 true)
  else if p = exInvoiceB then some (.base 1 false)
  else if p = exCoverC then some (.base 4 true)
  else if p = exInvoiceC then some (.base 5 false)
  else none

/-- Initial filesystem for the end-to-end pair, with page counts and widget
flags as parameters. -/
def exFS5 (nc ni : Nat) (wc wi : Bool) : FS := fun p =>
  if p = exCoverABC then some (.base nc wc)
  else if p = exInvoiceABC then some (.base ni wi)
  else none

/-- Initial filesystem for the spec's literal end-to-end file names. -/
def exFS5c : FS := fun p =>
  if p = exCoverNoSpace then some (.base 2 true)
  else if p = exInvoiceABC then some (.base 3 false)
  else none

/-- The end-to-end GUI run on the corrected cover file name. -/
def exRun5 (nc ni : Nat) (wc wi : Bool) : FS × List JobOutcome × Nat × Nat :=
  runPipelineGUI (fun _ => planAllOk) exDirOut DEFAULT_OUTPUT
    [exCoverABC, exInvoiceABC] (exFS5 nc ni wc wi)

/-- Number of `done` outcomes in a batch outcome list. -/
def countDone : List JobOutcome → Nat
  | [] => 0
  | .done :: r => countDone r + 1
  | _ :: r => countDone r

/-- Number of `failed` outcomes in a batch outcome list. -/
def countFailed : List JobOutcome → Nat
  | [] => 0
  | .failed :: r => countFailed r + 1
  | _ :: r => countFailed r

-- ── Helper lemmas ────────────────────────────────────────────

theorem FS.set_at (fs : FS) (p : FsPath) (v : Option Doc) : fs.set p v p = v := by
  simp [FS.set]

theorem FS.set_at_ne (fs : FS) {p q : FsPath} (v : Option Doc) (h : q ≠ p) :
    fs.set p v q = fs q := by
  simp [FS.set, h]

theorem cleanupTemp_at_self (fs : FS) (t : FsPath) : cleanupTemp fs true t t = none := by
  unfold cleanupTemp
  cases h : fs t with
  | none => exact h
  | some d => simp [FS.set]

theorem cleanupTemp_at_ne (fs : FS) (ok : Bool) {t q : FsPath} (h : q ≠ t) :
    cleanupTemp fs ok t q = fs q := by
  unfold cleanupTemp
  cases fs t with
  | none => rfl
  | some d => cases ok <;> simp [FS.set, h]

theorem cleanupTemp_preserves_none (fs : FS) (ok : Bool) {t q : FsPath}
    (h : fs q = none) : cleanupTemp fs ok t q = none := by
  by_cases hq : q = t
  · subst hq
    unfold cleanupTemp
    cases hft : fs q with
    | none => exact h
    | some d => cases ok <;> simp [FS.set, h, hft] at *
  · rw [cleanupTemp_at_ne fs ok hq, h]

theorem isPrefixL_self_append (p r : Str) : isPrefixL p (p ++ r) = true := by
  induction p with
  | nil => rfl
  | cons c cs ih => simp [isPrefixL, ih]

theorem endsWithL_append_self (x pat : Str) : endsWithL pat (x ++ pat) = true := by
  unfold endsWithL
  rw [List.reverse_append]
  exact isPrefixL_self_append pat.reverse x.reverse

-- ── C6 ───────────────────────────────────────────────────────

/-- C6: `is_valid_pdf` returns true exactly when the file is readable and its
first five bytes are the ASCII `%PDF-` magic; every unreadable path (missing
file, permission error — any caught I/O failure) and every too-short or
wrong-header file yields `false`, and the function is total (never raises). -/
theorem c6_is_valid_pdf_header (fs : ByteFS) (p : FsPath) :
    is_valid_pdf fs p = true ↔ ∃ bs, fs p = some bs ∧ bs.take 5 = PDF_MAGIC := by
  unfold is_valid_pdf
  cases h : fs p with
  | none => simp
  | some bs => simp [beq_iff_eq]

-- ── C10 ──────────────────────────────────────────────────────

/-- C10: when the (stripped) caller-supplied output name does not end in
".pdf", the pipeline appends ".pdf" before computing the single-pair output
path, so that path's file name always ends in ".pdf". -/
theorem c10_output_name_gets_pdf (s : Str)
    (h : endsWithL pdfSuffix (stripWs s) = false) :
    processOutputName s = stripWs s ++ pdfSuffix ∧
    endsWithL pdfSuffix (processOutputName s) = true ∧
    (∀ outFolder invoice,
      finalOutPath outFolder (processOutputName s) 1 invoice =
        ⟨outFolder, stripWs s ++ pdfSuffix⟩) := by
  have h1 : processOutputName s = stripWs s ++ pdfSuffix := by
    unfold processOutputName
    simp [h]
  refine ⟨h1, ?_, ?_⟩
  · rw [h1]; exact endsWithL_append_self _ _
  · intro outFolder invoice
    rw [h1]; rfl

/-- Witness for C10 at the concrete name "FINAL_MERGED". -/
theorem c10_output_name_gets_pdf_witness :
    processOutputName "FINAL_MERGED".toList = "FINAL_MERGED".toList ++ pdfSuffix ∧
    endsWithL pdfSuffix (processOutputName "FINAL_MERGED".toList) = true := by
  have h := c10_output_name_gets_pdf "FINAL_MERGED".toList (by decide)
  have hs : stripWs "FINAL_MERGED".toList = "FINAL_MERGED".toList := by decide
  exact ⟨by rw [h.1, hs], h.2.1⟩

-- ── C5 ───────────────────────────────────────────────────────

/-- C5 counterexample: the spec's literal file names `CoverSheet_ABC.pdf` and
`Invoice_ABC.pdf` are never paired — "coversheet_abc" does not contain the
literal keyword "cover sheet" — so the pipeline emits no pair and produces
no output (zero jobs, zero successes). -/
theorem c5_counterexample :
    pair_cover_invoices [exCoverNoSpace, exInvoiceABC] = [] ∧
    (runPipelineGUI (fun _ => planAllOk) exDirOut DEFAULT_OUTPUT
        [exCoverNoSpace, exInvoiceABC] exFS5c).2 = ([], 0, 0) := by
  constructor
  · decide
  · rfl

-- ── C3 ───────────────────────────────────────────────────────

/-- C3 counterexample: a bucket holding two cover-role candidates and one
invoice still emits a pair (the claim says it yields none), and the cover
retained is the last encountered one `Cover Sheet-A.pdf`, not the first. -/
theorem c3_counterexample :
    pair_cover_invoices [exCoverA, exCoverDupA, exInvoiceA] =
      [(exCoverDupA, exInvoiceA)] ∧
    exCoverDupA ≠ exCoverA := by
  constructor
  · decide
  · decide

-- ── C4 ───────────────────────────────────────────────────────

/-- C4 counterexample: a single file whose stem contains both keywords fills
both roles of its bucket with itself, and `pair()` emits a pair whose cover
and invoice are the same path. -/
theorem c4_counterexample :
    pair_cover_invoices [exBothRoles] = [(exBothRoles, exBothRoles)] ∧
    ¬ (∀ ci ∈ pair_cover_invoices [exBothRoles], ci.1 ≠ ci.2) := by
  constructor
  · decide
  · decide

-- ── Bucket-map lemmas ────────────────────────────────────────

theorem lookupEntry_insertGrouped_self (key stem : Str) (p : FsPath)
    (gs : List (Str × Entry)) :
    lookupEntry (insertGrouped key stem p gs) key =
      some (updateEntry stem p ((lookupEntry gs key).getD emptyEntry)) := by
  induction gs with
  | nil => simp [insertGrouped, lookupEntry]
  | cons ke rest ih =>
    obtain ⟨k, e⟩ := ke
    by_cases h : k = key
    · subst h
      simp [insertGrouped, lookupEntry]
    · simp [insertGrouped, lookupEntry, h, ih]

theorem lookupEntry_mem {gs : List (Str × Entry)} {k : Str} {e : Entry}
    (h : lookupEntry gs k = some e) : (k, e) ∈ gs := by
  induction gs with
  | nil => simp [lookupEntry] at h
  | cons ke rest ih =>
    obtain ⟨k', e'⟩ := ke
    by_cases hk : k' = k
    · subst hk
      simp [lookupEntry] at h
      simp [h]
    · simp [lookupEntry, hk] at h
      simp [ih h]

theorem extractPairs_of_mem {gs : List (Str × Entry)} {k : Str} {c i : FsPath}
    (h : (k, ⟨some c, some i⟩) ∈ gs) : (c, i) ∈ extractPairs gs := by
  unfold extractPairs
  rw [List.mem_filterMap]
  exact ⟨(k, ⟨some c, some i⟩), h, rfl⟩

theorem buildGroups_append (l : List FsPath) (p q : FsPath) :
    buildGroups (l ++ [p, q]) = insertPdf (insertPdf (buildGroups l) p) q := by
  unfold buildGroups
  rw [List.foldl_append]
  rfl

/-- C3, amended: the bucket slots are "last wins", and a bucket with both
slots occupied always emits a pair, no matter how many same-role candidates
it saw.  Appending a cover-role candidate `p` and then an invoice-role
candidate `q` of the same grouping key to any prefix makes that bucket
exactly `(p, q)`, and `(p, q)` is emitted by `pair()`. -/
theorem c3_amended (pre : List FsPath) (p q : FsPath)
    (hpc : containsSub COVER_KEYWORD (lowerStr p.stem) = true)
    (hpi : containsSub INVOICE_KEYWORD (lowerStr p.stem) = false)
    (hqi : containsSub INVOICE_KEYWORD (lowerStr q.stem) = true)
    (hqc : containsSub COVER_KEYWORD (lowerStr q.stem) = false)
    (hkey : sanitize (lowerStr q.stem) = sanitize (lowerStr p.stem)) :
    lookupEntry (buildGroups (pre ++ [p, q])) (sanitize (lowerStr p.stem)) =
      some ⟨some p, some q⟩ ∧
    (p, q) ∈ pair_cover_invoices (pre ++ [p, q]) := by
  have hmain :
      lookupEntry (buildGroups (pre ++ [p, q])) (sanitize (lowerStr p.stem)) =
        some ⟨some p, some q⟩ := by
    rw [buildGroups_append]
    show lookupEntry
        (insertGrouped (sanitize (lowerStr q.stem)) (lowerStr q.stem) q
          (insertPdf (buildGroups pre) p)) (sanitize (lowerStr p.stem)) = _
    rw [hkey, lookupEntry_insertGrouped_self]
    show some (updateEntry (lowerStr q.stem) q
        ((lookupEntry
          (insertGrouped (sanitize (lowerStr p.stem)) (lowerStr p.stem) p
            (buildGroups pre)) (sanitize (lowerStr p.stem))).getD emptyEntry)) = _
    rw [lookupEntry_insertGrouped_self]
    simp [updateEntry, hpc, hpi, hqc, hqi]
  exact ⟨hmain, extractPairs_of_mem (lookupEntry_mem hmain)⟩

/-- Witness for C3's amended theorem: bucket "a" with two covers and one
invoice retains the last cover and still emits its pair. -/
theorem c3_amended_witness :
    lookupEntry (buildGroups ([exCoverA] ++ [exCoverDupA, exInvoiceA]))
        (sanitize (lowerStr exCoverDupA.stem)) =
      some ⟨some exCoverDupA, some exInvoiceA⟩ ∧
    (exCoverDupA, exInvoiceA) ∈ pair_cover_invoices ([exCoverA] ++ [exCoverDupA, exInvoiceA]) :=
  c3_amended [exCoverA] exCoverDupA exInvoiceA
    (by decide) (by decide) (by decide) (by decide) (by decide)

-- ── C4 amended ───────────────────────────────────────────────

theorem entryOk_empty (A : List FsPath) : EntryOk A emptyEntry := by
  constructor <;> intro x hx <;> simp [emptyEntry] at hx

theorem entryOk_update {A : List FsPath} {p : FsPath} {e : Entry}
    (hA : p ∈ A) (he : EntryOk A e) :
    EntryOk A (updateEntry (lowerStr p.stem) p e) := by
  obtain ⟨ec, ei⟩ := e
  obtain ⟨hc, hi⟩ := he
  by_cases h1 : containsSub COVER_KEYWORD (lowerStr p.stem) = true <;>
  by_cases h2 : containsSub INVOICE_KEYWORD (lowerStr p.stem) = true
  · have hu : updateEntry (lowerStr p.stem) p ⟨ec, ei⟩ = ⟨some p, some p⟩ := by
      simp [updateEntry, h1, h2]
    rw [hu]
    refine ⟨?_, ?_⟩ <;> intro x hx <;> (injection hx with hx; subst hx)
    · exact ⟨hA, h1⟩
    · exact ⟨hA, h2⟩
  · have hu : updateEntry (lowerStr p.stem) p ⟨ec, ei⟩ = ⟨some p, ei⟩ := by
      simp [updateEntry, h1, h2]
    rw [hu]
    refine ⟨?_, ?_⟩
    · intro x hx; injection hx with hx; subst hx; exact ⟨hA, h1⟩
    · intro x hx; exact hi x hx
  · have hu : updateEntry (lowerStr p.stem) p ⟨ec, ei⟩ = ⟨ec, some p⟩ := by
      simp [updateEntry, h1, h2]
    rw [hu]
    refine ⟨?_, ?_⟩
    · intro x hx; exact hc x hx
    · intro x hx; injection hx with hx; subst hx; exact ⟨hA, h2⟩
  · have hu : updateEntry (lowerStr p.stem) p ⟨ec, ei⟩ = ⟨ec, ei⟩ := by
      simp [updateEntry, h1, h2]
    rw [hu]
    exact ⟨hc, hi⟩

theorem groupsOk_insertGrouped {A : List FsPath} {p : FsPath}
    {gs : List (Str × Entry)} (key : Str)
    (hA : p ∈ A) (hgs : GroupsOk A gs) :
    GroupsOk A (insertGrouped key (lowerStr p.stem) p gs) := by
  induction gs with
  | nil =>
    intro ke hke
    simp [insertGrouped] at hke
    rw [hke]
    exact entryOk_update hA (entryOk_empty A)
  | cons ke0 rest ih =>
    obtain ⟨k, e⟩ := ke0
    have hrest : GroupsOk A rest := fun ke hke => hgs ke (by simp [hke])
    have he : EntryOk A e := hgs (k, e) (by simp)
    by_cases h : k = key
    · subst h
      intro ke hke
      simp [insertGrouped] at hke
      rcases hke with hke | hke
      · rw [hke]
        exact entryOk_update hA he
      · exact hrest ke hke
    · intro ke hke
      simp [insertGrouped, h] at hke
      rcases hke with hke | hke
      · rw [hke]; exact he
      · exact ih hrest ke hke

theorem groupsOk_foldl {A : List FsPath} :
    ∀ (l : List FsPath) (gs : List (Str × Entry)),
      (∀ x ∈ l, x ∈ A) → GroupsOk A gs → GroupsOk A (l.foldl insertPdf gs)
  | [], gs, _, hgs => hgs
  | p :: l, gs, hl, hgs => by
    rw [List.foldl_cons]
    exact groupsOk_foldl l (insertPdf gs p)
      (fun x hx => hl x (by simp [hx]))
      (groupsOk_insertGrouped _ (hl p (by simp)) hgs)

theorem pair_mem_roles {pdfs : List FsPath} {c i : FsPath}
    (h : (c, i) ∈ pair_cover_invoices pdfs) :
    (c ∈ pdfs ∧ coverClassified c) ∧ (i ∈ pdfs ∧ invoiceClassified i) := by
  unfold pair_cover_invoices extractPairs at h
  rw [List.mem_filterMap] at h
  obtain ⟨⟨k, e⟩, hmem, heq⟩ := h
  have hok : EntryOk pdfs e :=
    groupsOk_foldl pdfs [] (fun x hx => hx) (by intro ke hke; simp at hke) (k, e) hmem
  obtain ⟨hc, hi⟩ := hok
  cases hcov : e.cover with
  | none => simp [hcov] at heq
  | some c' =>
    cases hinv : e.invoice with
    | none => simp [hcov, hinv] at heq
    | some i' =>
      simp [hcov, hinv] at heq
      obtain ⟨rfl, rfl⟩ := heq
      exact ⟨hc c' hcov, hi i' hinv⟩

/-- C4, amended: every pair emitted by `pair()` has a cover-classified cover
and an invoice-classified invoice drawn from the input list; consequently,
whenever no input stem contains both keywords at once, the cover and the
invoice of every emitted pair are distinct paths.  (The unamended claim fails
exactly on dual-keyword stems, which pair a file with itself.) -/
theorem c4_amended (pdfs : List FsPath)
    (h : ∀ p ∈ pdfs, ¬ (coverClassified p ∧ invoiceClassified p)) :
    ∀ ci ∈ pair_cover_invoices pdfs, ci.1 ≠ ci.2 := by
  intro ci hci heq
  obtain ⟨c, i⟩ := ci
  obtain ⟨⟨hcmem, hccl⟩, ⟨_, hicl⟩⟩ := pair_mem_roles hci
  simp at heq
  exact h c hcmem ⟨hccl, heq ▸ hicl⟩

/-- Witness for C4's amended theorem on the two-file example: the one pair
this example emits has distinct cover and invoice paths. -/
theorem c4_amended_witness :
    (exCoverA, exInvoiceA).1 ≠ (exCoverA, exInvoiceA).2 :=
  c4_amended [exCoverA, exInvoiceA] (by decide) (exCoverA, exInvoiceA) (by decide)

-- ── C9 ───────────────────────────────────────────────────────

/-- C9: two filenames of complementary roles (the first cover-classified
only, the second invoice-classified only) sharing a grouping key are paired
into exactly the one pair `(f1, f2)` in either input order; the grouping key
is a function of the lower-cased stem alone (case insensitivity); and
remapping separator characters to separator characters in the keyword-free
remainder of a stem leaves the grouping key unchanged (separator
insensitivity). -/
theorem c9_pairing_invariance (f1 f2 : FsPath) (g : Char → Char)
    (hg : ∀ c, isSep (g c) = isSep c ∧ (isSep c = false → g c = c))
    (h1c : containsSub COVER_KEYWORD (lowerStr f1.stem) = true)
    (h1i : containsSub INVOICE_KEYWORD (lowerStr f1.stem) = false)
    (h2i : containsSub INVOICE_KEYWORD (lowerStr f2.stem) = true)
    (h2c : containsSub COVER_KEYWORD (lowerStr f2.stem) = false)
    (hkey : sanitize (lowerStr f1.stem) = sanitize (lowerStr f2.stem)) :
    pair_cover_invoices [f1, f2] = [(f1, f2)] ∧
    pair_cover_invoices [f2, f1] = [(f1, f2)] ∧
    (∀ s t : Str, lowerStr s = lowerStr t →
      sanitize (lowerStr s) = sanitize (lowerStr t)) ∧
    (∀ x : Str, removeSeps (x.map g) = removeSeps x) := by
  have e1 : updateEntry (lowerStr f1.stem) f1 emptyEntry = ⟨some f1, none⟩ := by
    simp [updateEntry, emptyEntry, h1c, h1i]
  have e2 : updateEntry (lowerStr f2.stem) f2 emptyEntry = ⟨none, some f2⟩ := by
    simp [updateEntry, emptyEntry, h2c, h2i]
  have u12 : updateEntry (lowerStr f2.stem) f2 ⟨some f1, none⟩ = ⟨some f1, some f2⟩ := by
    simp [updateEntry, h2c, h2i]
  have u21 : updateEntry (lowerStr f1.stem) f1 ⟨none, some f2⟩ = ⟨some f1, some f2⟩ := by
    simp [updateEntry, h1c, h1i]
  refine ⟨?_, ?_, ?_, ?_⟩
  · unfold pair_cover_invoices buildGroups
    simp only [List.foldl_cons, List.foldl_nil, insertPdf, insertGrouped]
    rw [e1]
    rw [if_pos hkey, u12]
    rfl
  · unfold pair_cover_invoices buildGroups
    simp only [List.foldl_cons, List.foldl_nil, insertPdf, insertGrouped]
    rw [e2]
    rw [if_pos hkey.symm, u21]
    rfl
  · intro s t h
    unfold sanitize
    rw [show lowerStr (lowerStr s) = lowerStr (lowerStr t) by rw [h]]
  · intro x
    induction x with
    | nil => rfl
    | cons c cs ih =>
      obtain ⟨hsep, hfix⟩ := hg c
      unfold removeSeps at *
      cases h : isSep c with
      | false =>
        simp only [List.map_cons, List.filter_cons]
        rw [hfix h, h]
        simp [ih]
      | true =>
        simp only [List.map_cons, List.filter_cons]
        rw [hsep, h]
        simpa using ih

/-- Witness for C9 on a concrete complementary pair sharing key "a", with
the identity separator remapping. -/
theorem c9_pairing_invariance_witness :
    pair_cover_invoices [exCoverA, exInvoiceA] = [(exCoverA, exInvoiceA)] ∧
    pair_cover_invoices [exInvoiceA, exCoverA] = [(exCoverA, exInvoiceA)] :=
  have h := c9_pairing_invariance exCoverA exInvoiceA id
    (fun c => ⟨rfl, fun _ => rfl⟩)
    (by decide) (by decide) (by decide) (by decide) (by decide)
  ⟨h.1, h.2.1⟩

-- ── Adapter computation lemmas ───────────────────────────────

theorem doFlatten_some {fs : FS} {ok : Bool} {src dst : FsPath} {d : Doc}
    (h : fs src = some d) (hok : ok = true) :
    doFlatten fs ok src dst = some (fs.set dst (some (Doc.flat d))) := by
  simp [doFlatten, h, hok]

theorem doFlatten_toolfail {fs : FS} {ok : Bool} {src dst : FsPath}
    (hok : ok = false) : doFlatten fs ok src dst = none := by
  unfold doFlatten
  cases fs src <;> simp [hok]

theorem doFlatten_some_inv {fs : FS} {ok : Bool} {src dst : FsPath} {fs' : FS}
    (h : doFlatten fs ok src dst = some fs') :
    ∃ d, fs src = some d ∧ ok = true ∧ fs' = fs.set dst (some (Doc.flat d)) := by
  unfold doFlatten at h
  cases hs : fs src with
  | none => rw [hs] at h; exact absurd h (by simp)
  | some d =>
    rw [hs] at h
    cases hok : ok with
    | false => rw [hok] at h; simp at h
    | true =>
      rw [hok] at h
      simp at h
      exact ⟨d, rfl, rfl, h.symm⟩

theorem doMerge_some {fs : FS} {ok : Bool} {first second dst : FsPath} {a b : Doc}
    (h1 : fs first = some a) (h2 : fs second = some b) (hok : ok = true) :
    doMerge fs ok first second dst = some (fs.set dst (some (Doc.merged a b))) := by
  simp [doMerge, h1, h2, hok]

theorem doMerge_some_inv {fs : FS} {ok : Bool} {first second dst : FsPath} {fs' : FS}
    (h : doMerge fs ok first second dst = some fs') :
    ∃ a b, fs first = some a ∧ fs second = some b ∧
      fs' = fs.set dst (some (Doc.merged a b)) := by
  unfold doMerge at h
  cases ha : fs first with
  | none => rw [ha] at h; simp at h
  | some a =>
    cases hb : fs second with
    | none => rw [ha, hb] at h; simp at h
    | some b =>
      rw [ha, hb] at h
      cases hok : ok with
      | false => rw [hok] at h; simp at h
      | true =>
        rw [hok] at h
        simp at h
        exact ⟨a, b, rfl, rfl, h.symm⟩

-- ── C1 ───────────────────────────────────────────────────────

/-- C1 counterexample: a job on which everything through the final flatten
succeeds and then the replace step's rename fails (after the successful
unlink of the old merged file) ends `failed` with NO file at the output path:
the previously-written merged file was deleted, not left in place.  The same
job with a succeeding rename ends `done` with the output present, showing the
merge step itself succeeds on these inputs. -/
theorem c1_counterexample :
    (processPair planRenameFail exDirOut DEFAULT_OUTPUT 1 0 exCoverA exInvoiceA exFS6).outcome
      = .failed ∧
    (processPair planRenameFail exDirOut DEFAULT_OUTPUT 1 0 exCoverA exInvoiceA exFS6).calledMerge
      = true ∧
    (processPair planRenameFail exDirOut DEFAULT_OUTPUT 1 0 exCoverA exInvoiceA exFS6).fs exOutPath
      = none ∧
    (processPair planAllOk exDirOut DEFAULT_OUTPUT 1 0 exCoverA exInvoiceA exFS6).outcome
      = .done ∧
    (processPair planAllOk exDirOut DEFAULT_OUTPUT 1 0 exCoverA exInvoiceA exFS6).fs exOutPath
      = some (Doc.flat (Doc.merged (Doc.flat (Doc.base 2 true)) (Doc.base 3 false))) := by
  refine ⟨by decide, by decide, by decide, by decide, by decide⟩

/-- C1, amended: when the merge step has succeeded and the job then fails at
the final flatten call, or at the unlink of the old output, the job ends
`failed` and the unflattened merged file is still present at the output path;
(per the counterexample, a rename failure after a successful unlink instead
leaves no file at the output path). -/
theorem c1_amended (plan : StepPlan) (outFolder outName : Str) (npairs i : Nat)
    (cover invoice : FsPath) (fs : FS) (dc di : Doc)
    (hcov : fs cover = some dc)
    (hinv : fs invoice = some di)
    (hfc : plan.flattenCoverOk = true)
    (hcf : plan.confirmOverwrite = true)
    (hm : plan.mergeOk = true)
    (hfail : plan.flattenFinalOk = false ∨
      (plan.flattenFinalOk = true ∧ plan.unlinkFinalOk = false))
    (hne1 : invoice ≠ tempFlatPath outFolder cover i)
    (hne2 : finalOutPath outFolder outName npairs invoice ≠ tempFlatPath outFolder cover i)
    (hne3 : finalOutPath outFolder outName npairs invoice ≠
      tempFinalPath outFolder (finalOutPath outFolder outName npairs invoice) i) :
    (processPair plan outFolder outName npairs i cover invoice fs).outcome = .failed ∧
    (processPair plan outFolder outName npairs i cover invoice fs).fs
      (finalOutPath outFolder outName npairs invoice) =
      some (Doc.merged (Doc.flat dc) di) := by
  have hflat1 :
      doFlatten fs plan.flattenCoverOk cover (tempFlatPath outFolder cover i) =
        some (fs.set (tempFlatPath outFolder cover i) (some (Doc.flat dc))) :=
    doFlatten_some hcov hfc
  have hc1 : (fs.set (tempFlatPath outFolder cover i) (some (Doc.flat dc)))
      (tempFlatPath outFolder cover i) = some (Doc.flat dc) := FS.set_at _ _ _
  have hc2 : (fs.set (tempFlatPath outFolder cover i) (some (Doc.flat dc))) invoice
      = some di := by
    rw [FS.set_at_ne _ _ hne1, hinv]
  have hmerge :
      doMerge (fs.set (tempFlatPath outFolder cover i) (some (Doc.flat dc))) plan.mergeOk
        (tempFlatPath outFolder cover i) invoice
        (finalOutPath outFolder outName npairs invoice) =
      some ((fs.set (tempFlatPath outFolder cover i) (some (Doc.flat dc))).set
        (finalOutPath outFolder outName npairs invoice)
        (some (Doc.merged (Doc.flat dc) di))) :=
    doMerge_some hc1 hc2 hm
  have hf2 : ((fs.set (tempFlatPath outFolder cover i) (some (Doc.flat dc))).set
      (finalOutPath outFolder outName npairs invoice)
      (some (Doc.merged (Doc.flat dc) di)))
      (finalOutPath outFolder outName npairs invoice) =
      some (Doc.merged (Doc.flat dc) di) := FS.set_at _ _ _
  simp only [processPair, processPairCore]
  simp only [hflat1]
  simp only [hcf, Bool.not_true, Bool.and_false, Bool.false_eq_true, if_false]
  simp only [hmerge]
  rcases hfail with hff | ⟨hff, hul⟩
  · simp only [doFlatten_toolfail hff]
    refine ⟨by trivial, ?_⟩
    rw [cleanupTemp_at_ne _ _ hne3, cleanupTemp_at_ne _ _ hne2, hf2]
  · simp only [doFlatten_some hf2 hff]
    have hf3 : (((fs.set (tempFlatPath outFolder cover i) (some (Doc.flat dc))).set
        (finalOutPath outFolder outName npairs invoice)
        (some (Doc.merged (Doc.flat dc) di))).set
        (tempFinalPath outFolder (finalOutPath outFolder outName npairs invoice) i)
        (some (Doc.flat (Doc.merged (Doc.flat dc) di))))
        (finalOutPath outFolder outName npairs invoice) =
        some (Doc.merged (Doc.flat dc) di) := by
      rw [FS.set_at_ne _ _ hne3, hf2]
    simp only [hf3, hul, Bool.false_eq_true, if_false]
    refine ⟨by trivial, ?_⟩
    rw [cleanupTemp_at_ne _ _ hne3, cleanupTemp_at_ne _ _ hne2, hf3]

/-- Witness for C1's amended theorem: final flatten fails on the example job;
the merged-but-unflattened output is left in place and the job is failed. -/
theorem c1_amended_witness :
    (processPair planFinalFlattenFail exDirOut DEFAULT_OUTPUT 1 0 exCoverA exInvoiceA exFS6).outcome
      = .failed ∧
    (processPair planFinalFlattenFail exDirOut DEFAULT_OUTPUT 1 0 exCoverA exInvoiceA exFS6).fs
      (finalOutPath exDirOut DEFAULT_OUTPUT 1 exInvoiceA) =
      some (Doc.merged (Doc.flat (Doc.base 2 true)) (Doc.base 3 false)) :=
  c1_amended planFinalFlattenFail exDirOut DEFAULT_OUTPUT 1 0 exCoverA exInvoiceA exFS6
    (Doc.base 2 true) (Doc.base 3 false)
    (by decide) (by decide) (by decide) (by decide) (by decide)
    (Or.inl (by decide)) (by decide) (by decide) (by decide)

-- ── C7 ───────────────────────────────────────────────────────

/-- C7: a job whose cover flatten succeeds, whose computed output path holds
an existing file, and whose overwrite confirmation is answered "no", ends
`skipped`, never invokes the merge adapter, and leaves the existing file at
the output path unchanged. -/
theorem c7_overwrite_no (plan : StepPlan) (outFolder outName : Str) (npairs i : Nat)
    (cover invoice : FsPath) (fs : FS) (d dc : Doc)
    (hout : fs (finalOutPath outFolder outName npairs invoice) = some d)
    (hcov : fs cover = some dc)
    (hfc : plan.flattenCoverOk = true)
    (hcf : plan.confirmOverwrite = false)
    (hne : finalOutPath outFolder outName npairs invoice ≠ tempFlatPath outFolder cover i) :
    (processPair plan outFolder outName npairs i cover invoice fs).outcome = .skipped ∧
    (processPair plan outFolder outName npairs i cover invoice fs).calledMerge = false ∧
    (processPair plan outFolder outName npairs i cover invoice fs).fs
      (finalOutPath outFolder outName npairs invoice) = some d := by
  have hflat1 :
      doFlatten fs plan.flattenCoverOk cover (tempFlatPath outFolder cover i) =
        some (fs.set (tempFlatPath outFolder cover i) (some (Doc.flat dc))) :=
    doFlatten_some hcov hfc
  have hstill : (fs.set (tempFlatPath outFolder cover i) (some (Doc.flat dc)))
      (finalOutPath outFolder outName npairs invoice) = some d := by
    rw [FS.set_at_ne _ _ hne, hout]
  simp only [processPair, processPairCore]
  simp only [hflat1, hstill, hcf, Option.isSome_some, Bool.not_false, Bool.and_true, if_true]
  refine ⟨by trivial, by trivial, ?_⟩
  rw [cleanupTemp_at_ne _ _ hne, hstill]

/-- Witness for C7: the output exists and the dialog answers "no"; the job is
skipped, merge is never called, and the pre-existing file survives intact. -/
theorem c7_overwrite_no_witness :
    (processPair planConfirmNo exDirOut DEFAULT_OUTPUT 1 0 exCoverA exInvoiceA
      (exFS6.set exOutPath (some (Doc.base 9 false)))).outcome = .skipped ∧
    (processPair planConfirmNo exDirOut DEFAULT_OUTPUT 1 0 exCoverA exInvoiceA
      (exFS6.set exOutPath (some (Doc.base 9 false)))).calledMerge = false ∧
    (processPair planConfirmNo exDirOut DEFAULT_OUTPUT 1 0 exCoverA exInvoiceA
      (exFS6.set exOutPath (some (Doc.base 9 false)))).fs
      (finalOutPath exDirOut DEFAULT_OUTPUT 1 exInvoiceA) = some (Doc.base 9 false) :=
  c7_overwrite_no planConfirmNo exDirOut DEFAULT_OUTPUT 1 0 exCoverA exInvoiceA
    (exFS6.set exOutPath (some (Doc.base 9 false))) (Doc.base 9 false) (Doc.base 2 true)
    (by decide) (by decide) (by decide) (by decide) (by decide)

-- ── C8 ───────────────────────────────────────────────────────

/-- C8 counterexample: a fully successful two-pair CLI run terminates with
the first pair's flattened-cover temp file still on disk — the CLI cleanup
only ever deletes the last iteration's `temp_flat`, so not every temporary
file a job created is deleted at termination. -/
theorem c8_counterexample :
    (runPipelineCli (fun _ => planAllOk) exDirOut DEFAULT_OUTPUT
        [exCoverA, exInvoiceA, exCoverB, exInvoiceB] exFS6).2 = ([.done, .done], true) ∧
    (runPipelineCli (fun _ => planAllOk) exDirOut DEFAULT_OUTPUT
        [exCoverA, exInvoiceA, exCoverB, exInvoiceB] exFS6).1
      (cliTempFlat exDirOut exCoverA 0) = some (Doc.flat (Doc.base 2 true)) := by
  refine ⟨by decide, by decide⟩

theorem processPairCore_tfinal_cases (plan : StepPlan) (outFolder outName : Str)
    (npairs i : Nat) (cover invoice : FsPath) (fs : FS)
    (h0 : fs (tempFinalPath outFolder (finalOutPath outFolder outName npairs invoice) i) = none)
    (hne : tempFinalPath outFolder (finalOutPath outFolder outName npairs invoice) i ≠
      tempFlatPath outFolder cover i) :
    (processPairCore plan outFolder outName npairs i cover invoice fs).2.2.2 =
      some (tempFinalPath outFolder (finalOutPath outFolder outName npairs invoice) i) ∨
    ((processPairCore plan outFolder outName npairs i cover invoice fs).2.2.2 = none ∧
      (processPairCore plan outFolder outName npairs i cover invoice fs).1
        (tempFinalPath outFolder (finalOutPath outFolder outName npairs invoice) i) = none) := by
  simp only [processPairCore]
  split
  · exact Or.inr ⟨rfl, h0⟩
  · next fs1 h1 =>
    obtain ⟨d, hsrc, hok, rfl⟩ := doFlatten_some_inv h1
    have h0' : (fs.set (tempFlatPath outFolder cover i) (some (Doc.flat d)))
        (tempFinalPath outFolder (finalOutPath outFolder outName npairs invoice) i) = none := by
      rw [FS.set_at_ne _ _ hne, h0]
    split
    · exact Or.inr ⟨rfl, h0'⟩
    · split
      · exact Or.inr ⟨rfl, h0'⟩
      · split
        · exact Or.inl rfl
        · split
          · split
            · split
              · exact Or.inl rfl
              · exact Or.inl rfl
            · exact Or.inl rfl
          · split
            · exact Or.inl rfl
            · exact Or.inl rfl

/-- C8, amended: the GUI job deletes its temporaries on every exit path
(when the deletions themselves succeed, both temp paths are absent at job
termination), and a cleanup-deletion failure is swallowed — it never changes
the job's outcome.  (Per the counterexample, the CLI loop does not satisfy
the claim: it leaves earlier iterations' temp files behind.) -/
theorem c8_amended (plan : StepPlan) (outFolder outName : Str) (npairs i : Nat)
    (cover invoice : FsPath) (fs : FS)
    (h1 : plan.cleanupFlatOk = true) (h2 : plan.cleanupFinalOk = true)
    (h0 : fs (tempFinalPath outFolder (finalOutPath outFolder outName npairs invoice) i) = none)
    (hne : tempFinalPath outFolder (finalOutPath outFolder outName npairs invoice) i ≠
      tempFlatPath outFolder cover i) :
    (processPair plan outFolder outName npairs i cover invoice fs).fs
      (tempFlatPath outFolder cover i) = none ∧
    (processPair plan outFolder outName npairs i cover invoice fs).fs
      (tempFinalPath outFolder (finalOutPath outFolder outName npairs invoice) i) = none ∧
    (∀ b1 b2, (processPair
        { plan with cleanupFlatOk := b1, cleanupFinalOk := b2 }
        outFolder outName npairs i cover invoice fs).outcome =
      (processPair plan outFolder outName npairs i cover invoice fs).outcome) := by
  refine ⟨?_, ?_, ?_⟩
  · simp only [processPair, h1]
    cases htf : (processPairCore plan outFolder outName npairs i cover invoice fs).2.2.2 with
    | none =>
      simp only [htf]
      exact cleanupTemp_at_self _ _
    | some t =>
      simp only [htf]
      exact cleanupTemp_preserves_none _ _ (cleanupTemp_at_self _ _)
  · simp only [processPair, h1, h2]
    rcases processPairCore_tfinal_cases plan outFolder outName npairs i cover invoice fs h0 hne
      with htf | ⟨htf, hv⟩
    · simp only [htf]
      exact cleanupTemp_at_self _ _
    · simp only [htf]
      exact cleanupTemp_preserves_none _ _ hv
  · intro b1 b2
    rcases plan with ⟨a, b, c, d, e, f, g, h⟩
    rfl

/-- Witness for C8's amended theorem on the example single-pair job. -/
theorem c8_amended_witness :
    (processPair planAllOk exDirOut DEFAULT_OUTPUT 1 0 exCoverA exInvoiceA exFS6).fs
      (tempFlatPath exDirOut exCoverA 0) = none ∧
    (processPair planAllOk exDirOut DEFAULT_OUTPUT 1 0 exCoverA exInvoiceA exFS6).fs
      (tempFinalPath exDirOut (finalOutPath exDirOut DEFAULT_OUTPUT 1 exInvoiceA) 0) = none :=
  have h := c8_amended planAllOk exDirOut DEFAULT_OUTPUT 1 0 exCoverA exInvoiceA exFS6
    (by decide) (by decide) (by decide) (by decide)
  ⟨h.1, h.2.1⟩

-- ── C2 ───────────────────────────────────────────────────────

/-- C2 counterexample: a CLI batch of three pairs in which the second pair's
flatten fails terminates after the second pair — only two outcomes exist, the
third pair is never driven through its steps, and the process exits with
failure instead of reporting per-pair counts. -/
theorem c2_counterexample :
    (pair_cover_invoices
      [exCoverA, exInvoiceA, exCoverB, exInvoiceB, exCoverC, exInvoiceC]).length = 3 ∧
    (runPipelineCli exPlansSecondFails exDirOut DEFAULT_OUTPUT
        [exCoverA, exInvoiceA, exCoverB, exInvoiceB, exCoverC, exInvoiceC] exFS6).2 =
      ([.done, .failed], false) := by
  refine ⟨by decide, by decide⟩

theorem runJobs_length (plans : Nat → StepPlan) (outFolder outName : Str) (npairs : Nat) :
    ∀ (pairs : List (FsPath × FsPath)) (i : Nat) (fs : FS),
      (runJobs plans outFolder outName npairs i pairs fs).2.1.length = pairs.length
  | [], _, _ => rfl
  | (c, v) :: rest, i, fs => by
    simp only [runJobs, List.length_cons]
    rw [runJobs_length plans outFolder outName npairs rest]

theorem runJobs_counts (plans : Nat → StepPlan) (outFolder outName : Str) (npairs : Nat) :
    ∀ (pairs : List (FsPath × FsPath)) (i : Nat) (fs : FS),
      (runJobs plans outFolder outName npairs i pairs fs).2.2.1 =
        countDone (runJobs plans outFolder outName npairs i pairs fs).2.1 ∧
      (runJobs plans outFolder outName npairs i pairs fs).2.2.2 =
        countFailed (runJobs plans outFolder outName npairs i pairs fs).2.1
  | [], _, _ => ⟨rfl, rfl⟩
  | (c, v) :: rest, i, fs => by
    have ih := runJobs_counts plans outFolder outName npairs rest (i + 1)
      (processPair (plans i) outFolder outName npairs i c v fs).fs
    simp only [runJobs]
    rcases hout : (processPair (plans i) outFolder outName npairs i c v fs).outcome <;>
      simp only [hout, countDone, countFailed, ih.1, ih.2] <;>
      refine ⟨by simp, by simp⟩

/-- C2, amended: the GUI batch loop never aborts early — every pair of the
batch receives a terminal outcome, and the reported `successful`/`failed`
counters equal the number of `done` and `failed` outcomes respectively; in
particular a three-pair GUI batch whose second pair fails ends with outcomes
done/failed/done and counts successful=2, failed=1.  (Per the counterexample,
the CLI loop instead aborts the whole batch at the first failing pair.) -/
theorem c2_amended :
    (∀ (plans : Nat → StepPlan) (outFolder outName : Str) (npairs : Nat)
        (pairs : List (FsPath × FsPath)) (i : Nat) (fs : FS),
      (runJobs plans outFolder outName npairs i pairs fs).2.1.length = pairs.length ∧
      (runJobs plans outFolder outName npairs i pairs fs).2.2.1 =
        countDone (runJobs plans outFolder outName npairs i pairs fs).2.1 ∧
      (runJobs plans outFolder outName npairs i pairs fs).2.2.2 =
        countFailed (runJobs plans outFolder outName npairs i pairs fs).2.1) ∧
    (runPipelineGUI exPlansSecondFails exDirOut DEFAULT_OUTPUT
        [exCoverA, exInvoiceA, exCoverB, exInvoiceB, exCoverC, exInvoiceC] exFS6).2 =
      ([.done, .failed, .done], 2, 1) := by
  constructor
  · intro plans outFolder outName npairs pairs i fs
    exact ⟨runJobs_length plans outFolder outName npairs pairs i fs,
      runJobs_counts plans outFolder outName npairs pairs i fs⟩
  · decide

-- ── C5 amended ───────────────────────────────────────────────

/-- C5, amended: with the cover file named `Cover Sheet_ABC.pdf` (the literal
cover keyword requires the space) and `Invoice_ABC.pdf`, both valid PDFs, the
pipeline pairs exactly these two files and the successful run leaves exactly
one output whose page count is the cover's plus the invoice's page count and
which carries no widget annotations; both temp files are gone and the inputs
are untouched. -/
theorem c5_amended (nc ni : Nat) (wc wi : Bool) :
    pair_cover_invoices [exCoverABC, exInvoiceABC] = [(exCoverABC, exInvoiceABC)] ∧
    (exRun5 nc ni wc wi).2 = ([.done], 1, 0) ∧
    (exRun5 nc ni wc wi).1 exOutPath =
      some (Doc.flat (Doc.merged (Doc.flat (Doc.base nc wc)) (Doc.base ni wi))) ∧
    (Doc.flat (Doc.merged (Doc.flat (Doc.base nc wc)) (Doc.base ni wi))).pages = nc + ni ∧
    (Doc.flat (Doc.merged (Doc.flat (Doc.base nc wc)) (Doc.base ni wi))).hasWidgets = false ∧
    (exRun5 nc ni wc wi).1 (tempFlatPath exDirOut exCoverABC 0) = none ∧
    (exRun5 nc ni wc wi).1 (tempFinalPath exDirOut exOutPath 0) = none ∧
    (exRun5 nc ni wc wi).1 exCoverABC = some (Doc.base nc wc) ∧
    (exRun5 nc ni wc wi).1 exInvoiceABC = some (Doc.base ni wi) := by
  refine ⟨by decide, rfl, rfl, rfl, rfl, rfl, rfl, rfl, rfl⟩
